import Mathlib

/-!
Shallow embedding of the `bajor` remote-catalog batch prediction pipeline
(`azure/batch/scripts/predict_on_catalog.py` and the job API `bajor/main.py`),
with theorems checking the natural-language specification against the code.

Numeric values (numpy float arrays, Dirichlet concentration parameters) are
modelled as rationals; a predictions array of shape (n_galaxies, n_answers)
is a list of rows, each row a list of column values.
-/

set_option maxHeartbeats 1000000

namespace Bajor

/-- The row-wise sum `predictions[:, question_indices[0]:question_indices[1]+1].sum(axis=1)`
restricted to one row: numpy slice `row[q0 : q1+1]` is drop `q0` then take
`(q1+1) - q0`, and the `question_indices` list is accessed at positions 0 and 1
exactly as the source does. -/
def alpha_total_of_row (row : List ℚ) (question_indices : List ℕ) : ℚ :=
  ((row.drop (question_indices.getD 0 0)).take
    (question_indices.getD 1 0 + 1 - question_indices.getD 0 0)).sum

/-- Embedding of `predictions_to_expectation_of_answer`:
`alpha_all = predictions[:, q0:q1+1].sum(axis=1)`, `alpha_i = predictions[:, answer_index]`,
result `alpha_i / alpha_all`, vectorized over the galaxy (row) axis. -/
def predictions_to_expectation_of_answer (predictions : List (List ℚ))
    (question_indices : List ℕ) (answer_index : ℕ) : List ℚ :=
  predictions.map (fun row =>
    let alpha_all := alpha_total_of_row row question_indices
    let alpha_i := row.getD answer_index 0
    alpha_i / alpha_all)

/-- Embedding of `predictions_to_variance_of_answer`:
result `alpha_i * (alpha_all - alpha_i) / (alpha_all^2 * (alpha_all + 1))`,
vectorized over the galaxy (row) axis. -/
def predictions_to_variance_of_answer (predictions : List (List ℚ))
    (question_indices : List ℕ) (answer_index : ℕ) : List ℚ :=
  predictions.map (fun row =>
    let alpha_all := alpha_total_of_row row question_indices
    let alpha_i := row.getD answer_index 0
    alpha_i * (alpha_all - alpha_i) / (alpha_all ^ 2 * (alpha_all + 1)))

/-- A numpy slice `row[s : e+1]` of a sufficiently long row, as a map over indices. -/
lemma take_drop_eq_map_range (row : List ℚ) (s k : ℕ) (h : s + k ≤ row.length) :
    (row.drop s).take k = (List.range k).map (fun j => row.getD (s + j) 0) := by
  apply List.ext_getElem
  · simp only [List.length_take, List.length_drop, List.length_map, List.length_range]
    omega
  · intro i h1 h2
    simp only [List.length_take, List.length_drop] at h1
    have hi : s + i < row.length := by omega
    simp only [List.getElem_take, List.getElem_drop, List.getElem_map, List.getElem_range]
    rw [List.getD_eq_getElem row 0 hi]

/-- Sum of a mapped range as a `Finset.range` sum. -/
lemma sum_map_range_eq (f : ℕ → ℚ) (n : ℕ) :
    ((List.range n).map f).sum = ∑ j in Finset.range n, f j := by
  induction n with
  | zero => simp
  | succ n ih =>
      rw [List.range_succ, Finset.sum_range_succ, List.map_append, List.sum_append, ih]
      simp

/-- The code's slice sum over columns `s..e` (inclusive) of a row of width
`n_answers` equals the mathematical inclusive sum over those column indices. -/
lemma alpha_total_eq_sum_Icc (row : List ℚ) (n_answers s e : ℕ)
    (hlen : row.length = n_answers) (hse : s ≤ e) (hen : e < n_answers) :
    alpha_total_of_row row [s, e] = ∑ j in Finset.Icc s e, row.getD j 0 := by
  unfold alpha_total_of_row
  simp only [List.getD_cons_zero, List.getD_cons_succ]
  rw [take_drop_eq_map_range row s (e + 1 - s) (by omega), sum_map_range_eq,
    ← Nat.Ico_succ_right, Finset.sum_Ico_eq_sum_range]

/-- Entry `i` of a mapped list, through `getD`, when `i` is in bounds. -/
lemma getD_map_of_lt (f : List ℚ → ℚ) (l : List (List ℚ)) (i : ℕ) (hi : i < l.length) :
    (l.map f).getD i 0 = f (l.getD i []) := by
  rw [List.getD_eq_getElem (l.map f) 0 (by simpa using hi), List.getElem_map,
    List.getD_eq_getElem l [] hi]

/-- C1: for a predictions array of shape (n_galaxies, n_answers), a question
range `[s, e]` with `s ≤ e < n_answers` and an answer index in that range,
`predictions_to_expectation_of_answer` returns a vector of length n_galaxies
whose entry for row `i` is `predictions[i, answer_index]` divided by the
inclusive sum `predictions[i, s..e]`. -/
theorem expectation_entry_spec (predictions : List (List ℚ)) (n_answers s e a : ℕ)
    (hshape : ∀ row ∈ predictions, row.length = n_answers)
    (hse : s ≤ e) (hen : e < n_answers) (has : s ≤ a) (hae : a ≤ e) :
    (predictions_to_expectation_of_answer predictions [s, e] a).length = predictions.length ∧
    ∀ i, i < predictions.length →
      (predictions_to_expectation_of_answer predictions [s, e] a).getD i 0 =
        (predictions.getD i []).getD a 0 /
          ∑ j in Finset.Icc s e, (predictions.getD i []).getD j 0 := by
  constructor
  · simp [predictions_to_expectation_of_answer]
  · intro i hi
    unfold predictions_to_expectation_of_answer
    rw [getD_map_of_lt _ _ i hi]
    have hmem : predictions.getD i [] ∈ predictions := by
      rw [List.getD_eq_getElem predictions [] hi]
      exact List.getElem_mem hi
    rw [alpha_total_eq_sum_Icc (predictions.getD i []) n_answers s e
      (hshape _ hmem) hse hen]

/-- Witness for C1 on the source's own test matrix `[[8, 2, 1.5], [4, 5, 1.5]]`
with question range `[0, 2]` and answer index 0. -/
theorem expectation_entry_spec_witness :
    (predictions_to_expectation_of_answer [[8, 2, 3/2], [4, 5, 3/2]] [0, 2] 0).length = 2 ∧
    ∀ i, i < 2 →
      (predictions_to_expectation_of_answer [[8, 2, 3/2], [4, 5, 3/2]] [0, 2] 0).getD i 0 =
        (([[8, 2, 3/2], [4, 5, 3/2]] : List (List ℚ)).getD i []).getD 0 0 /
          ∑ j in Finset.Icc 0 2, (([[8, 2, 3/2], [4, 5, 3/2]] : List (List ℚ)).getD i []).getD j 0 := by
  have h := expectation_entry_spec [[8, 2, 3/2], [4, 5, 3/2]] 3 0 2 0
    (by intro row hrow; simp at hrow; rcases hrow with h1 | h1 <;> simp [h1])
    (by decide) (by decide) (by decide) (by decide)
  simpa using h

/-- C2: for a predictions array of shape (n_galaxies, n_answers), a question
range `[s, e]` inside the columns and an answer index in that range,
`predictions_to_variance_of_answer` returns, per row,
`alpha_answer * (alpha_total - alpha_answer) / (alpha_total^2 * (alpha_total + 1))`
with `alpha_total` the inclusive row-wise sum of the question's columns. -/
theorem variance_entry_spec (predictions : List (List ℚ)) (n_answers s e a : ℕ)
    (hshape : ∀ row ∈ predictions, row.length = n_answers)
    (hse : s ≤ e) (hen : e < n_answers) (has : s ≤ a) (hae : a ≤ e) :
    (predictions_to_variance_of_answer predictions [s, e] a).length = predictions.length ∧
    ∀ i, i < predictions.length →
      (predictions_to_variance_of_answer predictions [s, e] a).getD i 0 =
        (predictions.getD i []).getD a 0 *
            ((∑ j in Finset.Icc s e, (predictions.getD i []).getD j 0) -
              (predictions.getD i []).getD a 0) /
          ((∑ j in Finset.Icc s e, (predictions.getD i []).getD j 0) ^ 2 *
            ((∑ j in Finset.Icc s e, (predictions.getD i []).getD j 0) + 1)) := by
  constructor
  · simp [predictions_to_variance_of_answer]
  · intro i hi
    unfold predictions_to_variance_of_answer
    rw [getD_map_of_lt _ _ i hi]
    have hmem : predictions.getD i [] ∈ predictions := by
      rw [List.getD_eq_getElem predictions [] hi]
      exact List.getElem_mem hi
    rw [alpha_total_eq_sum_Icc (predictions.getD i []) n_answers s e
      (hshape _ hmem) hse hen]

/-- Witness for C2 on the source's own test matrix `[[8, 2, 1.5], [4, 5, 1.5]]`
with question range `[0, 2]` and answer index 0. -/
theorem variance_entry_spec_witness :
    (predictions_to_variance_of_answer [[8, 2, 3/2], [4, 5, 3/2]] [0, 2] 0).length = 2 ∧
    ∀ i, i < 2 →
      (predictions_to_variance_of_answer [[8, 2, 3/2], [4, 5, 3/2]] [0, 2] 0).getD i 0 =
        (([[8, 2, 3/2], [4, 5, 3/2]] : List (List ℚ)).getD i []).getD 0 0 *
            ((∑ j in Finset.Icc 0 2, (([[8, 2, 3/2], [4, 5, 3/2]] : List (List ℚ)).getD i []).getD j 0) -
              (([[8, 2, 3/2], [4, 5, 3/2]] : List (List ℚ)).getD i []).getD 0 0) /
          ((∑ j in Finset.Icc 0 2, (([[8, 2, 3/2], [4, 5, 3/2]] : List (List ℚ)).getD i []).getD j 0) ^ 2 *
            ((∑ j in Finset.Icc 0 2, (([[8, 2, 3/2], [4, 5, 3/2]] : List (List ℚ)).getD i []).getD j 0) + 1)) := by
  have h := variance_entry_spec [[8, 2, 3/2], [4, 5, 3/2]] 3 0 2 0
    (by intro row hrow; simp at hrow; rcases hrow with h1 | h1 <;> simp [h1])
    (by decide) (by decide) (by decide) (by decide)
  simpa using h

/-- C6 counterexample: the claim constrains only `alpha_answer ≤ alpha_total`
and `alpha_total > 0`; a negative concentration value satisfies both yet gives
an expectation below 0, outside `[0, 1]`.  Here the row is `[-1, 2]`, the
question range `[0, 1]`, the answer index 0: `alpha_answer = -1 ≤ 1 = alpha_total`,
`alpha_total = 1 > 0`, but the returned entry is `-1`. -/
theorem expectation_unit_interval_counterexample :
    (([(-1 : ℚ), 2].getD 0 0 ≤ alpha_total_of_row [-1, 2] [0, 1])
      ∧ 0 < alpha_total_of_row [-1, 2] [0, 1])
    ∧ (predictions_to_expectation_of_answer [[-1, 2]] [0, 1] 0).getD 0 0 < 0 := by
  norm_num [predictions_to_expectation_of_answer, alpha_total_of_row]

/-- C6 (amended): if additionally every row's `alpha_answer` is nonnegative
(concentration parameters are nonnegative in the data model), then with
`alpha_answer ≤ alpha_total` and `alpha_total > 0` every returned entry of
`predictions_to_expectation_of_answer` lies in `[0, 1]`. -/
theorem expectation_in_unit_interval (predictions : List (List ℚ))
    (question_indices : List ℕ) (a : ℕ)
    (h : ∀ row ∈ predictions,
      0 ≤ row.getD a 0 ∧ row.getD a 0 ≤ alpha_total_of_row row question_indices ∧
        0 < alpha_total_of_row row question_indices) :
    ∀ x ∈ predictions_to_expectation_of_answer predictions question_indices a,
      0 ≤ x ∧ x ≤ 1 := by
  intro x hx
  simp only [predictions_to_expectation_of_answer, List.mem_map] at hx
  obtain ⟨row, hrow, rfl⟩ := hx
  obtain ⟨h0, h1, h2⟩ := h row hrow
  refine ⟨div_nonneg h0 (le_of_lt h2), ?_⟩
  rw [div_le_one h2]
  exact h1

/-- Witness for the amended C6 at the source's first test row. -/
theorem expectation_in_unit_interval_witness :
    0 ≤ (predictions_to_expectation_of_answer [[8, 2, 3/2]] [0, 2] 0).getD 0 0 ∧
      (predictions_to_expectation_of_answer [[8, 2, 3/2]] [0, 2] 0).getD 0 0 ≤ 1 := by
  refine expectation_in_unit_interval [[8, 2, 3/2]] [0, 2] 0 ?_ _ ?_
  · intro row hrow
    simp only [List.mem_singleton] at hrow
    subst hrow
    norm_num [alpha_total_of_row]
  · rw [List.getD_eq_getElem _ _ (by simp [predictions_to_expectation_of_answer])]
    exact List.getElem_mem _

/-- A catalog row as `predict` reads it: `subject_id` and `image_url` columns. -/
structure CatalogRow where
  subject_id : String
  image_url : String
deriving DecidableEq

instance : Inhabited CatalogRow := ⟨⟨"", ""⟩⟩

/-- Consecutive batches of size `batch_size` (last batch may be shorter), the
order-preserving chunking a sequential DataLoader performs over its items. -/
def chunked (batch_size : ℕ) (xs : List α) : List (List α) :=
  if h : batch_size = 0 then []
  else
    match xs with
    | [] => []
    | y :: ys => (y :: ys).take batch_size :: chunked batch_size ((y :: ys).drop batch_size)
termination_by xs.length
decreasing_by
  simp only [List.length_drop, List.length_cons]
  omega

/-- Concatenating the batches back restores the original list. -/
lemma chunked_join (batch_size : ℕ) (hB : 0 < batch_size) (xs : List α) :
    (chunked batch_size xs).flatten = xs := by
  have H : ∀ n (ys : List α), ys.length ≤ n → (chunked batch_size ys).flatten = ys := by
    intro n
    induction n with
    | zero =>
        intro ys hy
        have : ys = [] := List.length_eq_zero.mp (Nat.le_zero.mp hy)
        subst this
        rw [chunked.eq_def, dif_neg (Nat.pos_iff_ne_zero.mp hB)]
        rfl
    | succ n ih =>
        intro ys hy
        rw [chunked.eq_def, dif_neg (Nat.pos_iff_ne_zero.mp hB)]
        match ys with
        | [] => rfl
        | z :: zs =>
            simp only [List.flatten_cons]
            rw [ih ((z :: zs).drop batch_size)
              (by simp only [List.length_drop, List.length_cons]
                  simp only [List.length_cons] at hy
                  omega),
              List.take_append_drop]
  exact H xs.length xs le_rfl

/-- Entry `i` of `(List.range n).map f` through `getD`. -/
lemma getD_map_range (f : ℕ → α) (d : α) (n i : ℕ) (hi : i < n) :
    ((List.range n).map f).getD i d = f i := by
  rw [List.getD_eq_getElem _ _ (by simpa using hi)]
  simp

/-- The dataset access of `PredictionGalaxyDataset.__getitem__` reduced to the
row lookup: `catalog.iloc[idx]`, then fetch+decode+transform of that row's
`image_url`, abstracted as a per-URL sample function `load`. -/
def dataset_sample (Img : Type) (load : String → Img) (catalog : List CatalogRow)
    (idx : ℕ) : Img :=
  load ((catalog.getD idx default).image_url)

/-- The `trainer.predict(model, predict_datamodule)` call: the loader chunks
indices `0..N-1` into consecutive batches, and the model maps each batch of
samples to a batch of per-galaxy prediction rows. -/
def trainer_predict (Img : Type) (model : Img → List ℚ) (load : String → Img)
    (catalog : List CatalogRow) (batch_size : ℕ) : List (List (List ℚ)) :=
  (chunked batch_size (List.range catalog.length)).map
    (fun batch => batch.map (fun idx => model (dataset_sample Img load catalog idx)))

/-- `torch.stack(passes, dim=2)`: from a list of `(n_galaxies, n_answers)`
passes, the `(n_galaxies, n_answers, n_samples)` tensor whose entry at
`[g][a][s]` is pass `s`'s entry at `[g][a]`; the leading dimensions are read
off the first pass. -/
def stack_dim2 (passes : List (List (List ℚ))) : List (List (List ℚ)) :=
  let n_galaxies := (passes.getD 0 []).length
  let n_answers := ((passes.getD 0 []).getD 0 []).length
  (List.range n_galaxies).map (fun g =>
    (List.range n_answers).map (fun a =>
      passes.map (fun p => (p.getD g []).getD a 0)))

/-- Embedding of lines 139+145 of `predict`: `trainer.predict` is called ONCE,
giving `batch_predictions`; the list comprehension then concatenates that same
list `n_samples` times and stacks the copies along a new trailing axis. -/
def code_stacked_predictions (batch_predictions : List (List (List ℚ)))
    (n_samples : ℕ) : List (List (List ℚ)) :=
  stack_dim2 ((List.range n_samples).map (fun _ => batch_predictions.flatten))

/-- Following the spec's words ("Repeat step 3 independently `n_samples` times
(each repetition may exercise stochastic regularization inside the model ...)
and stack the results along a new trailing axis"): each trailing-axis slice
comes from a distinct model invocation `invocation n`. -/
def spec_stacked_predictions (invocation : ℕ → List (List (List ℚ)))
    (n_samples : ℕ) : List (List (List ℚ)) :=
  stack_dim2 ((List.range n_samples).map (fun n => (invocation n).flatten))

/-- Line 105 of `predict`: `image_id_strs = list(catalog['subject_id'])`. -/
def image_id_strs (catalog : List CatalogRow) : List String :=
  catalog.map CatalogRow.subject_id

/-- The serializer formats `predict` can dispatch to. -/
inductive SaveFormat
  | csv
  | hdf5
deriving DecidableEq

/-- Embedding of the save dispatch at lines 150–156 of `predict`: Python
`save_loc.endswith('.csv')` selects the csv writer, else `.endswith('.hdf5')`
the hdf5 writer, else the csv writer again with a logged warning (the Bool).
A Python string is modelled as its list of characters. -/
def save_dispatch (save_loc : List Char) : SaveFormat × Bool :=
  if (".csv".toList).isSuffixOf save_loc then (SaveFormat.csv, false)
  else if (".hdf5".toList).isSuffixOf save_loc then (SaveFormat.hdf5, false)
  else (SaveFormat.csv, true)

/-- A string cannot end in both `.csv` and `.hdf5`. -/
lemma not_csv_suffix_of_hdf5_suffix (l : List Char)
    (h1 : ".hdf5".toList <:+ l) (h2 : ".csv".toList <:+ l) : False := by
  obtain ⟨t1, rfl⟩ := h1
  obtain ⟨t2, h⟩ := h2
  have e1 : (t2 ++ ".csv".toList).getLast? = some 'v' := by
    rw [List.getLast?_append_of_ne_nil _ (by decide)]
    decide
  have e2 : (t1 ++ ".hdf5".toList).getLast? = some '5' := by
    rw [List.getLast?_append_of_ne_nil _ (by decide)]
    decide
  rw [h, e2] at e1
  simp at e1

/-- The urllib3 `Retry` configuration as `requests_retry_session` builds it. -/
structure RetryConfig where
  total : ℕ
  read : ℕ
  connect : ℕ
  backoff_factor : ℚ
  status_forcelist : List ℕ
deriving DecidableEq

/-- A `requests.Session` as configured: the URL scheme prefixes the retry
adapter is mounted on, and the adapter's retry configuration. -/
structure Session where
  mounted_schemes : List String
  retry : RetryConfig
deriving DecidableEq

/-- Embedding of `requests_retry_session` (lines 22–36): `Retry(total=retries,
read=retries, connect=retries, backoff_factor=backoff_factor)` with the
`status_forcelist` argument left commented out (no status-based retry), and the
adapter mounted on both `http://` and `https://`.  Defaults: `retries=3`,
`backoff_factor=0.3`. -/
def requests_retry_session (retries : ℕ := 3) (backoff_factor : ℚ := 3/10) : Session :=
  { mounted_schemes := ["http://", "https://"]
    retry := { total := retries, read := retries, connect := retries,
               backoff_factor := backoff_factor, status_forcelist := [] } }

/-- One low-level outcome of a single request attempt. -/
inductive AttemptOutcome
  | connect_error
  | read_error
  | response (status : ℕ)
deriving DecidableEq

/-- Outcome of the adapter's GET over a trace of attempt outcomes. -/
inductive FetchOutcome
  | got (status : ℕ) (attempts : ℕ)
  | retries_exhausted (attempts : ℕ)
  | trace_exhausted
deriving DecidableEq

/-- urllib3 retry semantics, modelled: a connection (read) failure consumes one
unit of the `connect` (`read`) budget and of `total`, and is retried while
budget remains; a response whose status is not in `status_forcelist` is
returned as-is (no retry is consumed by its status). `attempts` counts the
requests actually made. -/
def run_get : RetryConfig → List AttemptOutcome → ℕ → FetchOutcome
  | _, [], _ => FetchOutcome.trace_exhausted
  | cfg, AttemptOutcome.connect_error :: rest, n =>
      if cfg.connect = 0 ∨ cfg.total = 0 then FetchOutcome.retries_exhausted (n + 1)
      else run_get { cfg with connect := cfg.connect - 1, total := cfg.total - 1 } rest (n + 1)
  | cfg, AttemptOutcome.read_error :: rest, n =>
      if cfg.read = 0 ∨ cfg.total = 0 then FetchOutcome.retries_exhausted (n + 1)
      else run_get { cfg with read := cfg.read - 1, total := cfg.total - 1 } rest (n + 1)
  | cfg, AttemptOutcome.response s :: rest, n =>
      if s ∈ cfg.status_forcelist then
        (if cfg.total = 0 then FetchOutcome.retries_exhausted (n + 1)
         else run_get { cfg with total := cfg.total - 1 } rest (n + 1))
      else FetchOutcome.got s (n + 1)

/-- What `__getitem__` sees from `requests_retry_session().get(url)` followed
by `response.raise_for_status()` (lines 59–62): a 4xx/5xx status raises. -/
inductive GetOutcome
  | ok (status : ℕ) (attempts : ℕ)
  | status_error (status : ℕ) (attempts : ℕ)
  | network_error (attempts : ℕ)
  | undetermined
deriving DecidableEq

/-- `session.get(url)` then `raise_for_status()` over an attempt trace. -/
def get_with_raise (session : Session) (trace : List AttemptOutcome) : GetOutcome :=
  match run_get session.retry trace 0 with
  | FetchOutcome.got s n =>
      if 400 ≤ s ∧ s < 600 then GetOutcome.status_error s n else GetOutcome.ok s n
  | FetchOutcome.retries_exhausted n => GetOutcome.network_error n
  | FetchOutcome.trace_exhausted => GetOutcome.undetermined

/-- urllib3 `Retry.get_backoff_time`, modelled: zero before the second
consecutive error, then `backoff_factor * 2^(consecutive_errors - 1)`. -/
def get_backoff_time (cfg : RetryConfig) (consecutive_errors : ℕ) : ℚ :=
  if consecutive_errors ≤ 1 then 0
  else cfg.backoff_factor * 2 ^ (consecutive_errors - 1)

/-- A GET whose trace is connection/read failures within all three budgets,
then a response not in the forcelist, returns that response, one attempt per
trace element. -/
lemma run_get_errors_then_response (errs : List AttemptOutcome) :
    ∀ (cfg : RetryConfig) (s n : ℕ),
    (∀ o ∈ errs, o = AttemptOutcome.connect_error ∨ o = AttemptOutcome.read_error) →
    errs.length ≤ cfg.connect → errs.length ≤ cfg.read → errs.length ≤ cfg.total →
    s ∉ cfg.status_forcelist →
    run_get cfg (errs ++ [AttemptOutcome.response s]) n =
      FetchOutcome.got s (n + errs.length + 1) := by
  induction errs with
  | nil =>
      intro cfg s n _ _ _ _ hs
      simp [run_get, hs]
  | cons o rest ih =>
      intro cfg s n herr hc hr ht hs
      simp only [List.length_cons] at hc hr ht
      rcases herr o (by simp) with rfl | rfl
      · simp only [List.cons_append, run_get]
        rw [if_neg (by omega)]
        have h2 := ih { cfg with connect := cfg.connect - 1, total := cfg.total - 1 } s (n + 1)
          (fun x hx => herr x (by simp [hx]))
          (by show rest.length <= cfg.connect - 1; omega)
          (by show rest.length <= cfg.read; omega)
          (by show rest.length <= cfg.total - 1; omega)
          hs
        simp only [List.append_eq]
        rw [h2]
        simp only [List.length_cons]
        congr 1
        omega
      · simp only [List.cons_append, run_get]
        rw [if_neg (by omega)]
        have h2 := ih { cfg with read := cfg.read - 1, total := cfg.total - 1 } s (n + 1)
          (fun x hx => herr x (by simp [hx]))
          (by show rest.length <= cfg.connect; omega)
          (by show rest.length <= cfg.read - 1; omega)
          (by show rest.length <= cfg.total - 1; omega)
          hs
        simp only [List.append_eq]
        rw [h2]
        simp only [List.length_cons]
        congr 1
        omega

/-- The scalar Dirichlet identity behind C10. -/
lemma dirichlet_scalar_identity (A T : ℚ) (hT : T ≠ 0) (hT1 : T + 1 ≠ 0) :
    A * (T - A) / (T ^ 2 * (T + 1)) = A / T * (1 - A / T) / (T + 1) := by
  field_simp
  ring_nf
  tauto

/-- C10: wherever every row's `alpha_total` is strictly positive, the two
statistics functions satisfy, entrywise,
`variance = expectation * (1 - expectation) / (alpha_total + 1)`. -/
theorem variance_eq_expectation_identity (predictions : List (List ℚ)) (s e a : ℕ)
    (has : s ≤ a) (hae : a ≤ e)
    (hpos : ∀ row ∈ predictions, 0 < alpha_total_of_row row [s, e]) :
    ∀ i, i < predictions.length →
      (predictions_to_variance_of_answer predictions [s, e] a).getD i 0 =
        (predictions_to_expectation_of_answer predictions [s, e] a).getD i 0 *
            (1 - (predictions_to_expectation_of_answer predictions [s, e] a).getD i 0) /
          (alpha_total_of_row (predictions.getD i []) [s, e] + 1) := by
  intro i hi
  unfold predictions_to_variance_of_answer predictions_to_expectation_of_answer
  rw [getD_map_of_lt _ _ i hi, getD_map_of_lt _ _ i hi]
  have hmem : predictions.getD i [] ∈ predictions := by
    rw [List.getD_eq_getElem predictions [] hi]
    exact List.getElem_mem hi
  have hT := hpos _ hmem
  have hT0 : alpha_total_of_row (predictions.getD i []) [s, e] ≠ 0 := ne_of_gt hT
  have hT1 : alpha_total_of_row (predictions.getD i []) [s, e] + 1 ≠ 0 := by positivity
  exact dirichlet_scalar_identity _ _ hT0 hT1

/-- Witness for C10 at row 0 of the source's test matrix. -/
theorem variance_eq_expectation_identity_witness :
    (predictions_to_variance_of_answer [[8, 2, 3/2], [4, 5, 3/2]] [0, 2] 0).getD 0 0 =
      (predictions_to_expectation_of_answer [[8, 2, 3/2], [4, 5, 3/2]] [0, 2] 0).getD 0 0 *
          (1 - (predictions_to_expectation_of_answer [[8, 2, 3/2], [4, 5, 3/2]] [0, 2] 0).getD 0 0) /
        (alpha_total_of_row (([[8, 2, 3/2], [4, 5, 3/2]] : List (List ℚ)).getD 0 []) [0, 2] + 1) := by
  refine variance_eq_expectation_identity [[8, 2, 3/2], [4, 5, 3/2]] 0 2 0
    (by decide) (by decide) ?_ 0 (by decide)
  intro row hrow
  simp only [List.mem_cons, List.mem_singleton] at hrow
  rcases hrow with h1 | h1 | h1
  · subst h1; norm_num [alpha_total_of_row]
  · subst h1; norm_num [alpha_total_of_row]
  · cases h1

/-- C3 evidence: `predict` calls `trainer.predict` once (line 139) and line 145
stacks that single result `n_samples` times.  For a stochastic model whose
invocation `n` yields the one-batch result `[[1]]` on pass 0 and `[[2]]` on
pass 1 (one galaxy, one answer), the code's output with `n_samples = 2` is
`[[[1, 1]]]` — both trailing-axis slices are copies of invocation 0 — while
stacking two distinct invocations as the claim describes gives `[[[1, 2]]]`;
the two disagree. -/
theorem predict_stacking_reuses_single_invocation :
    code_stacked_predictions ((fun n => if n = 0 then [[[(1 : ℚ)]]] else [[[2]]]) 0) 2
      = [[[1, 1]]] ∧
    spec_stacked_predictions (fun n => if n = 0 then [[[(1 : ℚ)]]] else [[[2]]]) 2
      = [[[1, 2]]] ∧
    code_stacked_predictions ((fun n => if n = 0 then [[[(1 : ℚ)]]] else [[[2]]]) 0) 2
      ≠ spec_stacked_predictions (fun n => if n = 0 then [[[(1 : ℚ)]]] else [[[2]]]) 2 := by
  refine ⟨rfl, rfl, ?_⟩
  decide

/-- C4: the subject identifiers are extracted in catalog order, and row `i` of
the concatenated prediction tensor is the model's output on the dataset sample
at index `i`, which in turn is loaded from catalog row `i`'s `image_url` —
for every `0 ≤ i < N` and any batch size the loader chunks with. -/
theorem predict_row_order (Img : Type) (model : Img → List ℚ) (load : String → Img)
    (catalog : List CatalogRow) (batch_size : ℕ) (hB : 0 < batch_size) :
    (image_id_strs catalog).length = catalog.length ∧
    ((trainer_predict Img model load catalog batch_size).flatten).length = catalog.length ∧
    ∀ i, i < catalog.length →
      (image_id_strs catalog).getD i "" = (catalog.getD i default).subject_id ∧
      ((trainer_predict Img model load catalog batch_size).flatten).getD i [] =
        model (dataset_sample Img load catalog i) ∧
      dataset_sample Img load catalog i = load ((catalog.getD i default).image_url) := by
  have hflat : (trainer_predict Img model load catalog batch_size).flatten
      = (List.range catalog.length).map (fun idx => model (dataset_sample Img load catalog idx)) := by
    unfold trainer_predict
    rw [← List.map_flatten, chunked_join batch_size hB]
  refine ⟨by simp [image_id_strs], by simp [hflat], ?_⟩
  intro i hi
  refine ⟨?_, ?_, rfl⟩
  · unfold image_id_strs
    rw [List.getD_eq_getElem _ _ (by simpa using hi), List.getElem_map,
      List.getD_eq_getElem catalog default hi]
  · rw [hflat, getD_map_range _ _ _ _ hi]

/-- Witness for C4: a three-row catalog, batch size 2, the sample being the
URL itself and the model reporting the URL's length. -/
theorem predict_row_order_witness :
    (image_id_strs [⟨"a", "u1"⟩, ⟨"b", "u22"⟩, ⟨"c", "u333"⟩]).length
      = ([⟨"a", "u1"⟩, ⟨"b", "u22"⟩, ⟨"c", "u333"⟩] : List CatalogRow).length ∧
    ((trainer_predict String (fun s => [(s.length : ℚ)]) id
        [⟨"a", "u1"⟩, ⟨"b", "u22"⟩, ⟨"c", "u333"⟩] 2).flatten).length
      = ([⟨"a", "u1"⟩, ⟨"b", "u22"⟩, ⟨"c", "u333"⟩] : List CatalogRow).length ∧
    ∀ i, i < ([⟨"a", "u1"⟩, ⟨"b", "u22"⟩, ⟨"c", "u333"⟩] : List CatalogRow).length →
      (image_id_strs [⟨"a", "u1"⟩, ⟨"b", "u22"⟩, ⟨"c", "u333"⟩]).getD i ""
        = (([⟨"a", "u1"⟩, ⟨"b", "u22"⟩, ⟨"c", "u333"⟩] : List CatalogRow).getD i default).subject_id ∧
      ((trainer_predict String (fun s => [(s.length : ℚ)]) id
          [⟨"a", "u1"⟩, ⟨"b", "u22"⟩, ⟨"c", "u333"⟩] 2).flatten).getD i []
        = (fun s => [((s : String).length : ℚ)]) (dataset_sample String id [⟨"a", "u1"⟩, ⟨"b", "u22"⟩, ⟨"c", "u333"⟩] i) ∧
      dataset_sample String id [⟨"a", "u1"⟩, ⟨"b", "u22"⟩, ⟨"c", "u333"⟩] i
        = id (([⟨"a", "u1"⟩, ⟨"b", "u22"⟩, ⟨"c", "u333"⟩] : List CatalogRow).getD i default).image_url :=
  predict_row_order String (fun s => [(s.length : ℚ)]) id
    [⟨"a", "u1"⟩, ⟨"b", "u22"⟩, ⟨"c", "u333"⟩] 2 (by decide)

/-- C9: the serializer dispatch selects the csv writer for a `.csv` suffix, the
hdf5 writer for an `.hdf5` suffix, and for any other suffix warns and falls
back to the csv writer; being a total function into one `(writer, warned)`
pair, it invokes exactly one writer and never raises. -/
theorem save_dispatch_spec :
    (∀ save_loc : List Char, (".csv".toList).isSuffixOf save_loc →
      save_dispatch save_loc = (SaveFormat.csv, false)) ∧
    (∀ save_loc : List Char, (".hdf5".toList).isSuffixOf save_loc →
      save_dispatch save_loc = (SaveFormat.hdf5, false)) ∧
    (∀ save_loc : List Char, ¬ (".csv".toList).isSuffixOf save_loc →
      ¬ (".hdf5".toList).isSuffixOf save_loc →
      save_dispatch save_loc = (SaveFormat.csv, true)) := by
  refine ⟨?_, ?_, ?_⟩
  · intro save_loc h
    unfold save_dispatch
    rw [if_pos h]
  · intro save_loc h
    have hcsv : ¬ (".csv".toList).isSuffixOf save_loc = true := by
      intro hc
      exact not_csv_suffix_of_hdf5_suffix save_loc
        (List.isSuffixOf_iff_suffix.mp h) (List.isSuffixOf_iff_suffix.mp hc)
    unfold save_dispatch
    rw [if_neg hcsv, if_pos h]
  · intro save_loc h1 h2
    unfold save_dispatch
    rw [if_neg h1, if_neg h2]

/-- A fetched HTTP response as `__getitem__` sees it after `raise_for_status`
passes: the declared `content-type` header and the open byte stream
`response.raw`. -/
structure HttpResponse where
  content_type : String
  raw : List ℕ
deriving DecidableEq

/-- Which decoder ran and what it consumed: `Image.open(response.raw)` reads
the stream handle directly; `Image.fromarray(decode_jpeg(response.raw.read()))`
feeds the stream's raw bytes to the streaming JPEG decoder. -/
inductive DecodedImage
  | pil_open_stream (stream : List ℕ)
  | jpeg_from_bytes (bytes : List ℕ)
deriving DecidableEq

/-- Embedding of the content-type dispatch at lines 63–71 of
`PredictionGalaxyDataset.__getitem__`: exactly `image/png` goes to the
whole-buffer PIL decoder on the stream handle; everything else is assumed
JPEG and decoded from the raw bytes. -/
def decode_response (response : HttpResponse) : DecodedImage :=
  if response.content_type = "image/png" then
    DecodedImage.pil_open_stream response.raw
  else
    DecodedImage.jpeg_from_bytes response.raw

/-- C7: the decode is a closed two-way dispatch on the declared content-type:
exactly `image/png` selects the whole-buffer decoder reading the stream handle
directly, and every other declared type is assumed JPEG and decoded by the
streaming JPEG decoder over the raw bytes. -/
theorem decode_dispatch_spec :
    (∀ r : HttpResponse, r.content_type = "image/png" →
      decode_response r = DecodedImage.pil_open_stream r.raw) ∧
    (∀ r : HttpResponse, r.content_type ≠ "image/png" →
      decode_response r = DecodedImage.jpeg_from_bytes r.raw) := by
  constructor
  · intro r h
    unfold decode_response
    rw [if_pos h]
  · intro r h
    unfold decode_response
    rw [if_neg h]

/-- Embedding of the try/except of `__getitem__` (lines 47–91): the fetch and
decode of the row's `image_url` either yields an image or raises `e`; the
except block logs `'Cannot load <url>'` and re-raises the same `e`; on success
the optional transform is applied and the label stays the empty list.  The
result pairs the log lines with the outcome. -/
def getitem_with_logging (E Img TImg : Type) (fetch_decode : String → Except E Img)
    (transform : Img → TImg) (catalog : List CatalogRow) (idx : ℕ) :
    List String × Except E (TImg × List ℚ) :=
  match fetch_decode ((catalog.getD idx default).image_url) with
  | Except.error e =>
      (["Cannot load " ++ (catalog.getD idx default).image_url], Except.error e)
  | Except.ok image => ([], Except.ok (transform image, []))

/-- C8: whenever the fetch/decode of a row's `image_url` raises `e`, the
dataset access logs one line naming the failing URL and re-raises that same
`e` unmodified — the outcome is an error, never a substituted fallback
image. -/
theorem getitem_logs_and_reraises (E Img TImg : Type)
    (fetch_decode : String → Except E Img) (transform : Img → TImg)
    (catalog : List CatalogRow) (idx : ℕ) (e : E)
    (h : fetch_decode ((catalog.getD idx default).image_url) = Except.error e) :
    getitem_with_logging E Img TImg fetch_decode transform catalog idx =
      (["Cannot load " ++ (catalog.getD idx default).image_url], Except.error e) := by
  unfold getitem_with_logging
  rw [h]

/-- Witness for C8: a one-row catalog whose fetch always raises `"boom"`. -/
theorem getitem_logs_and_reraises_witness :
    getitem_with_logging String ℕ ℕ (fun _ => Except.error "boom") id [⟨"a", "u"⟩] 0 =
      (["Cannot load " ++ (([⟨"a", "u"⟩] : List CatalogRow).getD 0 default).image_url],
        Except.error "boom") :=
  getitem_logs_and_reraises String ℕ ℕ (fun _ => Except.error "boom") id [⟨"a", "u"⟩] 0 "boom" rfl

/-- C5: the session built per dataset access carries `Retry(total=3, read=3,
connect=3, backoff_factor=0.3)` with no status forcelist, mounted on both the
http and https schemes; up to 3 connection/read failures are retried through
to a success (one attempt each), a 4th failure exhausts the budget, the
backoff grows exponentially with factor 0.3, and any first response with a
4xx/5xx status raises after exactly one attempt — no retry budget consumed. -/
theorem fetch_retry_spec :
    (requests_retry_session).retry =
      { total := 3, read := 3, connect := 3, backoff_factor := 3/10,
        status_forcelist := [] } ∧
    (requests_retry_session).mounted_schemes = ["http://", "https://"] ∧
    (∀ errs : List AttemptOutcome,
      (∀ o ∈ errs, o = AttemptOutcome.connect_error ∨ o = AttemptOutcome.read_error) →
      errs.length ≤ 3 →
      get_with_raise requests_retry_session (errs ++ [AttemptOutcome.response 200]) =
        GetOutcome.ok 200 (errs.length + 1)) ∧
    get_with_raise requests_retry_session (List.replicate 4 AttemptOutcome.connect_error) =
      GetOutcome.network_error 4 ∧
    (∀ k, 2 ≤ k →
      get_backoff_time (requests_retry_session).retry k = 3/10 * 2 ^ (k - 1)) ∧
    (∀ s : ℕ, 400 ≤ s → s < 600 → ∀ rest : List AttemptOutcome,
      get_with_raise requests_retry_session (AttemptOutcome.response s :: rest) =
        GetOutcome.status_error s 1) := by
  refine ⟨rfl, rfl, ?_, rfl, ?_, ?_⟩
  · intro errs herr hlen
    unfold get_with_raise
    rw [run_get_errors_then_response errs _ 200 0 herr hlen hlen hlen (by simp [requests_retry_session])]
    simp
  · intro k hk
    unfold get_backoff_time
    rw [if_neg (by omega)]
    rfl
  · intro s h4 h6 rest
    unfold get_with_raise
    have hrun : run_get (requests_retry_session).retry (AttemptOutcome.response s :: rest) 0 =
        FetchOutcome.got s 1 := by
      simp [run_get, requests_retry_session]
    rw [hrun]
    simp only []
    rw [if_pos ⟨h4, h6⟩]

end Bajor
